import Mathlib

/-!
A verification development for the cooperative multi-process task scheduler
in src/scheduler/mod.rs.  The stateful Rust code is shallowly embedded as
pure Lean functions over an explicit state: the SchedulerRoot maps become
association lists, the filesystem contents of the resource directories
become a list of TaskFile records, machine integers become Nat, and the
outcomes of the fallible filesystem operations that handle_next consumes
(directory scan results, try_destroy and perform_task success) are explicit
inputs.  Mutex acquisitions, releases and the other externally observable
effects of one tick are additionally recorded as an event trace in program
order.
-/

/-- The identity of a pending task, as used by scheduler/mod.rs: priority
(lower value = higher priority), descriptive name, per-process monotonic id,
and the process token. -/
structure TaskIdent where
  priority : Nat
  name : String
  id : Nat
  process_id : String
deriving DecidableEq, Repr

/-- Modelled from the spec: the canonical filename encoding
"priority-process_id-id-name" of a TaskIdent (task_ident.rs is not under
src/). -/
def TaskIdent.to_filename (i : TaskIdent) : String :=
  toString i.priority ++ "-" ++ i.process_id ++ "-" ++ toString i.id ++ "-" ++ i.name

/-- An on-disk task record: one file per (task, resource directory).  The
path is modelled as the resource directory name plus the file name, so the
Rust test path.starts_with(dir) becomes equality of the dir component. -/
structure TaskFile where
  dir : String
  fname : String
deriving DecidableEq, Repr

/-- Process-local scheduler state: SchedulerRoot's maps (task_files,
own_tasks, ident_counter), the on-disk files visible in the resource
directories, and the ResourceScheduler's previous slot.  In own_tasks each
ident is mapped to whether its ownership mutex is currently held (so that a
try_lock on it would fail). -/
structure SchedState where
  task_files : List (TaskIdent × List TaskFile)
  own_tasks : List (TaskIdent × Bool)
  disk : List TaskFile
  previous : Option (TaskIdent × Nat)
  ident_counter : Nat
deriving DecidableEq, Repr

/-- Observable events of one handle_next tick, in program order:
acquisition and release of the SchedulerRoot mutex, destruction of a
TaskFile, execution of the task (perform_task), and removal of the ident
from own_tasks. -/
inductive Ev where
  | lockRoot
  | unlockRoot
  | performTask
  | removeOwnTask
  | destroyFile (tf : TaskFile)
deriving DecidableEq, Repr

/-- HashMap lookup, on the association-list model of the maps. -/
def lookupTasks {α : Type} (l : List (TaskIdent × α)) (i : TaskIdent) : Option α :=
  match l with
  | [] => none
  | (j, v) :: rest => if j = i then some v else lookupTasks rest i

/-- A scan candidate: parsed ident, on-disk creation time, and the probe
result locked (true means the exclusive try-lock failed, i.e. the creator
still holds its shared lock). -/
abbrev Cand := TaskIdent × Nat × Bool

/-- The sort_by comparator of handle_next (lines 288-295): priority first,
then the on-disk creation timestamp; the locked flag is not compared. -/
def candCmp (a b : Cand) : Ordering :=
  match compare a.1.priority b.1.priority with
  | Ordering.eq => compare a.2.1 b.2.1
  | o => o

/-- Candidate a need not come strictly after b: the comparator does not
answer gt.  This is the relation under which a stable sort by candCmp
sorts. -/
def candLE (a b : Cand) : Prop := candCmp a b ≠ Ordering.gt

instance : DecidableRel candLE := fun a b => by
  unfold candLE; infer_instance

/-- The ranking performed by handle_next: Rust slice sort_by is a stable
sort, embedded as insertion sort under candLE (stable: an element is
inserted after all comparator-equal elements already placed). -/
def rankCandidates (l : List Cand) : List Cand := List.insertionSort candLE l

/-- The comparator key of a candidate: (priority, creation time). -/
def candKey (c : Cand) : Nat × Nat := (c.1.priority, c.2.1)

/-- The scan step of handle_next from the parse results on: entries whose
filename fails to parse as a TaskIdent are skipped. -/
def parseScan (scan : List (Option TaskIdent × Nat × Bool)) : List Cand :=
  scan.filterMap (fun e => e.1.map (fun i => (i, e.2.1, e.2.2)))

/-- The TaskFiles of the ident that are not inside this resource directory;
handle_next destroys these immediately as losers, in iteration order. -/
def loserFiles (dir : String) (files : List TaskFile) : List TaskFile :=
  files.filter (fun tf => !(tf.dir == dir))

/-- The to_destroy_later slot: the last TaskFile of the iteration whose path
is inside this resource directory. -/
def localFile (dir : String) (files : List TaskFile) : Option TaskFile :=
  files.foldl (fun acc tf => if tf.dir == dir then some tf else acc) none

/-- The result of one handle_next tick: the new state, the task performed
(if any), the event trace in program order, and whether handle_next
returned Ok (false means an error was propagated by the question-mark
operator). -/
structure TickOut where
  state : SchedState
  performed : Option TaskIdent
  events : List Ev
  ok : Bool
deriving DecidableEq, Repr

/-- The own-task branch of handle_next (lines 312-366).  The first
lockRoot/unlockRoot pair is the is_own lookup (lines 304-310); then the
root mutex is reacquired, the task ownership mutex is try_locked, and on
success the loser TaskFiles are destroyed, perform_task runs while the root
mutex is still held, the local TaskFile is destroyed, the root mutex guard
is dropped, and finally the root mutex is reacquired to remove the ident
from own_tasks.  perform_ok models whether perform_task returns Ok
(acquiring the ResourceLock can fail); on Err the question-mark operator
aborts the tick before the local TaskFile is destroyed. -/
def ownBranch (dir : String) (ident : TaskIdent) (mutexHeld : Bool)
    (perform_ok : Bool) (s : SchedState) : TickOut :=
  if mutexHeld then
    { state := s, performed := none,
      events := [Ev.lockRoot, Ev.unlockRoot, Ev.lockRoot, Ev.unlockRoot],
      ok := true }
  else
    let files := (lookupTasks s.task_files ident).getD []
    let losers := loserFiles dir files
    let disk1 := s.disk.filter (fun x => !(losers.contains x))
    if perform_ok then
      let disk2 := (match localFile dir files with
        | some tf => disk1.filter (fun x => !(x == tf))
        | none => disk1)
      { state := { s with
                   previous := none
                   disk := disk2
                   own_tasks := s.own_tasks.filter (fun p => !(p.1 == ident)) },
        performed := some ident,
        events := [Ev.lockRoot, Ev.unlockRoot, Ev.lockRoot]
          ++ losers.map Ev.destroyFile ++ [Ev.performTask]
          ++ (match localFile dir files with
              | some tf => [Ev.destroyFile tf]
              | none => [])
          ++ [Ev.unlockRoot, Ev.lockRoot, Ev.removeOwnTask, Ev.unlockRoot],
        ok := true }
    else
      { state := { s with previous := none, disk := disk1 },
        performed := none,
        events := [Ev.lockRoot, Ev.unlockRoot, Ev.lockRoot]
          ++ losers.map Ev.destroyFile ++ [Ev.unlockRoot],
        ok := false }

/-- The foreign-unlocked reaper update of handle_next (lines 372-391).  The
guards are evaluated in source order; in the count-at-least-two case
try_destroy unlinks the ident's file in this directory, and a try_destroy
error is propagated by the question-mark operator, so the assignment to
previous never happens and previous is left unchanged. -/
def reaperUpdate (dir : String) (ident : TaskIdent) (try_destroy_ok : Bool)
    (s : SchedState) : TickOut :=
  match s.previous with
  | some (p, n) =>
    if p = ident ∧ n ≥ 2 then
      if try_destroy_ok then
        { state := { s with
                     previous := none
                     disk := s.disk.filter
                       (fun x => !(x == TaskFile.mk dir (TaskIdent.to_filename ident))) },
          performed := none,
          events := [Ev.lockRoot, Ev.unlockRoot,
            Ev.destroyFile (TaskFile.mk dir (TaskIdent.to_filename ident))],
          ok := true }
      else
        { state := s, performed := none,
          events := [Ev.lockRoot, Ev.unlockRoot], ok := false }
    else if p = ident then
      { state := { s with previous := some (p, n + 1) }, performed := none,
        events := [Ev.lockRoot, Ev.unlockRoot], ok := true }
    else
      { state := { s with previous := none }, performed := none,
        events := [Ev.lockRoot, Ev.unlockRoot], ok := true }
  | none =>
    { state := { s with previous := some (ident, 1) }, performed := none,
      events := [Ev.lockRoot, Ev.unlockRoot], ok := true }

/-- One tick of ResourceScheduler::handle_next (lines 262-395), from the
scan results on: parse, rank, take the head of the ranking, classify
ownership, and run the own branch or the foreign branch.  On an empty
candidate list previous is cleared and the tick returns before touching the
root mutex. -/
def handle_next (dir : String) (scan : List (Option TaskIdent × Nat × Bool))
    (try_destroy_ok perform_ok : Bool) (s : SchedState) : TickOut :=
  match (rankCandidates (parseScan scan)).head? with
  | none =>
    { state := { s with previous := none }, performed := none, events := [],
      ok := true }
  | some (ident, _, locked) =>
    match lookupTasks s.own_tasks ident with
    | some mutexHeld => ownBranch dir ident mutexHeld perform_ok s
    | none =>
      if locked then
        { state := { s with previous := none }, performed := none,
          events := [Ev.lockRoot, Ev.unlockRoot], ok := true }
      else reaperUpdate dir ident try_destroy_ok s

/-- Sequential polling: run handle_next for each (resource dir, scan) in
turn, threading the shared process state, with try_destroy and perform_task
succeeding, and collect the performed idents in order. -/
def runSteps : List (String × List (Option TaskIdent × Nat × Bool)) →
    SchedState → SchedState × List TaskIdent
  | [], s => (s, [])
  | (dir, scan) :: rest, s =>
    ((runSteps rest (handle_next dir scan true true s).state).1,
     (handle_next dir scan true true s).performed.toList ++
       (runSteps rest (handle_next dir scan true true s).state).2)

/-- Scheduler-level state: the shared root state plus the
resource_schedulers vector, represented by the dir_id of each pushed
ResourceScheduler. -/
structure FullState where
  sched : SchedState
  resource_schedulers : List String
deriving DecidableEq, Repr

/-- Scheduler::ensure_resource_scheduler (lines 176-187): unconditionally
pushes a new ResourceScheduler for the resource; deduplication exists only
as a FIXME comment. -/
def ensure_resource_scheduler (fs : FullState) (dir_id : String) : FullState :=
  { fs with resource_schedulers := fs.resource_schedulers ++ [dir_id] }

/-- Modelled from the spec: PROCESS_ID is a random 10-character token chosen
once per process lifetime; the embedding fixes one arbitrary value. -/
def processToken : String := "p"

/-- SchedulerRoot::new_ident: allocate the monotonic counter; does not touch
disk. -/
def new_ident (s : SchedState) (priority : Nat) (name : String) :
    TaskIdent × SchedState :=
  (⟨priority, name, s.ident_counter, processToken⟩,
   { s with ident_counter := s.ident_counter + 1 })

/-- task_files.entry(ident).or_insert(default).insert(task_file): HashSet
insertion under the ident. -/
def insertTaskFile (l : List (TaskIdent × List TaskFile)) (i : TaskIdent)
    (tf : TaskFile) : List (TaskIdent × List TaskFile) :=
  match l with
  | [] => [(i, [tf])]
  | (j, fs) :: rest =>
    if j = i then (j, if fs.contains tf then fs else fs ++ [tf]) :: rest
    else (j, fs) :: insertTaskFile rest i tf

/-- own_tasks.insert(ident, Mutex::new(task.clone_task())): overwrite with a
fresh, unheld mutex. -/
def insertOwnTask (l : List (TaskIdent × Bool)) (i : TaskIdent) :
    List (TaskIdent × Bool) :=
  match l with
  | [] => [(i, false)]
  | (j, b) :: rest =>
    if j = i then (j, false) :: rest else (j, b) :: insertOwnTask rest i

/-- SchedulerRoot::schedule (lines 219-238): for each resource, enqueue a
TaskFile on disk in that resource directory (enqueue_in_dir, modelled from
the spec: creates dir/filename), record it in task_files, and (re)insert
the task into own_tasks. -/
def SchedulerRoot.schedule (s : SchedState) (i : TaskIdent)
    (resources : List String) : SchedState :=
  resources.foldl
    (fun st r =>
      let tf : TaskFile := ⟨r, TaskIdent.to_filename i⟩
      { st with disk := st.disk ++ [tf],
                task_files := insertTaskFile st.task_files i tf,
                own_tasks := insertOwnTask st.own_tasks i })
    s

/-- Scheduler::schedule (lines 147-167): ensure a ResourceScheduler per
listed resource, then allocate an ident and delegate to
SchedulerRoot::schedule. -/
def Scheduler.schedule (fs : FullState) (priority : Nat) (name : String)
    (resources : List String) : FullState :=
  let fs1 := resources.foldl (fun acc r => ensure_resource_scheduler acc r) fs
  let (ident, s1) := new_ident fs1.sched priority name
  { fs1 with sched := SchedulerRoot.schedule s1 ident resources }

/-- The control channel of Scheduler::start/stop: the queued messages and
whether the receiver (owned by the worker thread) is still alive. -/
structure Chan where
  queued : Nat
  receiverAlive : Bool
deriving DecidableEq, Repr

/-- mpsc Sender::send(()): fails with SendError iff the receiver has been
dropped. -/
def chanSend (c : Chan) : Except Unit Chan :=
  if c.receiverAlive then Except.ok { c with queued := c.queued + 1 }
  else Except.error ()

/-- Scheduler::stop (lines 169-174): send () on the control channel if one
is present; a send error is propagated by the question-mark operator and
nothing else is modified (the channel stays installed). -/
def Scheduler.stop (chan : Option Chan) : Except Unit (Option Chan) :=
  match chan with
  | some c => (chanSend c).map (fun c2 => some c2)
  | none => Except.ok none

/-- The worker's should_stop check (line 127): try_recv succeeds iff a
message is queued, consuming it. -/
def workerCheck (c : Chan) : Bool × Chan :=
  if c.queued > 0 then (true, { c with queued := c.queued - 1 })
  else (false, c)

/-- The two should_stop check sites of the worker loop in Scheduler::start:
the outer check at the top of the loop (line 130) and the inner check
inside the for loop over the resource schedulers (line 134). -/
inductive CheckSite where
  | outer
  | inner
deriving DecidableEq, Repr

/-- One should_stop check of the worker loop in Scheduler::start (lines
129-141), at the given site.  A signal consumed at the outer check breaks
the outer loop: the thread function returns and the receiver is dropped,
with no further handle_next invocation.  A signal consumed at the inner
check only breaks the for loop (the break at line 134 exits the for, not
the loop): the remaining handle_next invocations of this tick are skipped,
but the thread sleeps and re-enters the outer loop with the receiver still
alive — the consumed signal is lost.  Returns (thread exited, channel
afterwards, whether handle_next invocations follow this check in the
current tick). -/
def workerCheckAt (site : CheckSite) (c : Chan) : Bool × Chan × Bool :=
  let (stopSig, c1) := workerCheck c
  if stopSig then
    match site with
    | CheckSite.outer => (true, { c1 with receiverAlive := false }, false)
    | CheckSite.inner => (false, c1, false)
  else (false, c1, true)

/-- In Scheduler::start the worker runs s.handle_next().expect(...) (line
138): the polling thread panics, and therefore terminates, on any Err from
handle_next.  True iff the thread survives this scheduler's slot of the
tick. -/
def workerTickSurvives (dir : String)
    (scan : List (Option TaskIdent × Nat × Bool))
    (try_destroy_ok perform_ok : Bool) (s : SchedState) : Bool :=
  (handle_next dir scan try_destroy_ok perform_ok s).ok

/-- One step of the lock-depth scan over an event trace: track the root
mutex lock depth, and record whether some performTask event occurs at
positive depth. -/
def heldStep (acc : Nat × Bool) (ev : Ev) : Nat × Bool :=
  match ev with
  | Ev.lockRoot => (acc.1 + 1, acc.2)
  | Ev.unlockRoot => (acc.1 - 1, acc.2)
  | Ev.performTask => (acc.1, acc.2 || decide (0 < acc.1))
  | _ => acc

/-- True iff some performTask event of the trace occurs while the
SchedulerRoot mutex is held (the lock depth accumulated over the preceding
events is positive). -/
def heldAtPerform (evs : List Ev) : Bool :=
  (evs.foldl heldStep ((0 : Nat), false)).2

/-- The previous-slot evolution exactly as the specification words it (the
spec side of the refinement for claim C2): none becomes (ident, 1);
(ident, n) with n < 2 becomes (ident, n+1); (ident, n) with n at least 2
becomes none (after try_destroy); a different ident becomes none. -/
def reaperSpecStep (ident : TaskIdent) (prev : Option (TaskIdent × Nat)) :
    Option (TaskIdent × Nat) :=
  match prev with
  | none => some (ident, 1)
  | some (p, n) =>
    if p = ident then (if n < 2 then some (ident, n + 1) else none) else none

/-! Concrete instances used by witnesses and counterexamples. -/

/-- Two idents tied on priority; identA has the lexicographically smaller
filename. -/
def identA : TaskIdent := ⟨0, "a", 0, "p"⟩

/-- The tied partner of identA, scanned first. -/
def identB : TaskIdent := ⟨0, "b", 1, "p"⟩

/-- An own task enqueued on two resources. -/
def idC : TaskIdent := ⟨1, "c", 0, "p"⟩

/-- idC's TaskFile in resource directory d1. -/
def tfC1 : TaskFile := ⟨"d1", "f"⟩

/-- idC's TaskFile in resource directory d2. -/
def tfC2 : TaskFile := ⟨"d2", "f"⟩

/-- A state in which idC is own, unclaimed, and enqueued in d1 and d2. -/
def stC4 : SchedState :=
  ⟨[(idC, [tfC1, tfC2])], [(idC, false)], [tfC1, tfC2], none, 0⟩

/-- An own task for the C1 witness. -/
def idO : TaskIdent := ⟨0, "o", 3, "p"⟩

/-- idO's TaskFile in resource directory dA. -/
def tfO1 : TaskFile := ⟨"dA", "f0"⟩

/-- idO's TaskFile in resource directory dB. -/
def tfO2 : TaskFile := ⟨"dB", "f0"⟩

/-- A state in which idO is own, unclaimed, and enqueued in dA and dB. -/
def stO : SchedState :=
  ⟨[(idO, [tfO1, tfO2])], [(idO, false)], [tfO1, tfO2], some (idO, 1), 4⟩

/-- A foreign ident for the C2 witness. -/
def idP : TaskIdent := ⟨1, "q", 6, "z"⟩

/-- A state that does not own idP and has previously observed it once. -/
def stP : SchedState := ⟨[], [], [], some (idP, 1), 0⟩

/-- A foreign ident for the C5 scenario. -/
def idR : TaskIdent := ⟨0, "r", 9, "q"⟩

/-- A state that has observed idR unlocked twice already. -/
def stC5 : SchedState := ⟨[], [], [⟨"d", idR.to_filename⟩], some (idR, 2), 0⟩

/-- A foreign ident for the C7 scenario. -/
def idW : TaskIdent := ⟨2, "w", 4, "q"⟩

/-- A state in which the reaper branch for idW will call try_destroy. -/
def stC7 : SchedState := ⟨[], [], [⟨"dw", idW.to_filename⟩], some (idW, 5), 3⟩

/-- An own task for the C8 witness. -/
def idE : TaskIdent := ⟨0, "e", 2, "p"⟩

/-- idE's single TaskFile. -/
def tfE : TaskFile := ⟨"dE", "g"⟩

/-- A state in which idE is own, unclaimed, with one local TaskFile. -/
def stE : SchedState := ⟨[(idE, [tfE])], [(idE, false)], [tfE], none, 0⟩

/-- An own task for the C8 counterexample. -/
def idF : TaskIdent := ⟨3, "f", 7, "p"⟩

/-- idF's TaskFile in resource directory dF. -/
def tfF1 : TaskFile := ⟨"dF", "h1"⟩

/-- idF's TaskFile in resource directory dG. -/
def tfF2 : TaskFile := ⟨"dG", "h2"⟩

/-- A state in which idF is own, unclaimed, and enqueued in dF and dG. -/
def stF : SchedState :=
  ⟨[(idF, [tfF1, tfF2])], [(idF, false)], [tfF1, tfF2], none, 1⟩

/-- A freshly created Scheduler with an empty root. -/
def fs0 : FullState := ⟨⟨[], [], [], none, 0⟩, []⟩

/-! Helper lemmas about the comparator and the stable sort. -/

theorem candCmp_eq_gt (a b : Cand) :
    candCmp a b = Ordering.gt ↔
      b.1.priority < a.1.priority ∨
        (a.1.priority = b.1.priority ∧ b.2.1 < a.2.1) := by
  unfold candCmp
  cases h : compare a.1.priority b.1.priority with
  | lt =>
    have hp := Nat.compare_eq_lt.mp h
    constructor
    · intro hc; simp at hc
    · intro hc; rcases hc with h1 | ⟨h2, h3⟩ <;> omega
  | eq =>
    have hp := Nat.compare_eq_eq.mp h
    constructor
    · intro hc; exact Or.inr ⟨hp, Nat.compare_eq_gt.mp hc⟩
    · intro hc
      rcases hc with h1 | ⟨h2, h3⟩
      · omega
      · exact Nat.compare_eq_gt.mpr h3
  | gt =>
    have hp := Nat.compare_eq_gt.mp h
    constructor
    · intro _; exact Or.inl hp
    · intro _; rfl

theorem candLE_iff (a b : Cand) :
    candLE a b ↔
      a.1.priority < b.1.priority ∨
        (a.1.priority = b.1.priority ∧ a.2.1 ≤ b.2.1) := by
  unfold candLE
  simp only [Ne, candCmp_eq_gt]
  omega

instance : IsTotal Cand candLE :=
  ⟨fun a b => by simp only [candLE_iff]; omega⟩

instance : IsTrans Cand candLE :=
  ⟨fun a b c => by simp only [candLE_iff]; omega⟩

theorem candKey_eq_le {a b : Cand} (h : candKey a = candKey b) : candLE a b := by
  rw [candLE_iff]
  simp [candKey, Prod.ext_iff] at h
  omega

theorem filter_key_orderedInsert_self (a : Cand) (l : List Cand) :
    (List.orderedInsert candLE a l).filter
        (fun c => decide (candKey c = candKey a)) =
      a :: l.filter (fun c => decide (candKey c = candKey a)) := by
  induction l with
  | nil => simp [List.orderedInsert]
  | cons b l ih =>
    by_cases h : candLE a b
    · simp only [List.orderedInsert, if_pos h]
      simp [List.filter_cons]
    · simp only [List.orderedInsert, if_neg h]
      have hkey : ¬ candKey b = candKey a := fun he => h (candKey_eq_le he.symm)
      simp [List.filter_cons, hkey, ih]

theorem filter_key_orderedInsert_ne (a : Cand) (k : Nat × Nat) (l : List Cand)
    (hk : ¬ candKey a = k) :
    (List.orderedInsert candLE a l).filter (fun c => decide (candKey c = k)) =
      l.filter (fun c => decide (candKey c = k)) := by
  induction l with
  | nil => simp [List.orderedInsert, hk]
  | cons b l ih =>
    by_cases h : candLE a b
    · simp only [List.orderedInsert, if_pos h]
      simp [List.filter_cons, hk]
    · simp only [List.orderedInsert, if_neg h]
      simp [List.filter_cons, ih]

theorem rank_stable_key (l : List Cand) (k : Nat × Nat) :
    (rankCandidates l).filter (fun c => decide (candKey c = k)) =
      l.filter (fun c => decide (candKey c = k)) := by
  induction l with
  | nil => rfl
  | cons a l ih =>
    unfold rankCandidates at ih ⊢
    simp only [List.insertionSort]
    by_cases hk : candKey a = k
    · subst hk
      rw [filter_key_orderedInsert_self, ih]
      simp [List.filter_cons]
    · rw [filter_key_orderedInsert_ne a k _ hk, ih]
      simp [List.filter_cons, hk]

/-! Helper lemmas about the maps and the branches of handle_next. -/

theorem lookupTasks_filter_out {α : Type} (l : List (TaskIdent × α)) (i : TaskIdent) :
    lookupTasks (l.filter (fun p => !(p.1 == i))) i = none := by
  induction l with
  | nil => rfl
  | cons a l ih =>
    by_cases h : a.1 = i
    · simp [List.filter_cons, h, ih]
    · simp [List.filter_cons, h, lookupTasks, ih]

theorem lookupTasks_filter_none {α : Type} (l : List (TaskIdent × α)) (i : TaskIdent)
    (p : TaskIdent × α → Bool) (h : lookupTasks l i = none) :
    lookupTasks (l.filter p) i = none := by
  induction l with
  | nil => rfl
  | cons a l ih =>
    by_cases ha : a.1 = i
    · simp [lookupTasks, ha] at h
    · have h2 : lookupTasks l i = none := by simpa [lookupTasks, ha] using h
      by_cases hp : p a
      · simp [List.filter_cons, hp, lookupTasks, ha, ih h2]
      · simp [List.filter_cons, hp, ih h2]

theorem not_mem_filter_self (l : List TaskFile) (x : TaskFile) :
    x ∉ l.filter (fun y => !(y == x)) := by
  intro hmem
  have h := (List.mem_filter.mp hmem).2
  simp at h

theorem not_mem_filter_contains (l rem : List TaskFile) (x : TaskFile)
    (hx : x ∈ rem) : x ∉ l.filter (fun y => !(rem.contains y)) := by
  intro hmem
  have h := (List.mem_filter.mp hmem).2
  simp at h
  exact h hx

theorem handle_next_head_none (dir : String)
    (scan : List (Option TaskIdent × Nat × Bool)) (td pk : Bool) (s : SchedState)
    (h : (rankCandidates (parseScan scan)).head? = none) :
    handle_next dir scan td pk s =
      { state := { s with previous := none }, performed := none, events := [],
        ok := true } := by
  unfold handle_next
  rw [h]

theorem handle_next_own_eq (dir : String)
    (scan : List (Option TaskIdent × Nat × Bool)) (td pk : Bool) (s : SchedState)
    (ident : TaskIdent) (t : Nat) (locked b : Bool)
    (hh : (rankCandidates (parseScan scan)).head? = some (ident, t, locked))
    (ho : lookupTasks s.own_tasks ident = some b) :
    handle_next dir scan td pk s = ownBranch dir ident b pk s := by
  unfold handle_next
  simp only [hh, ho]

theorem handle_next_foreign_unlocked_eq (dir : String)
    (scan : List (Option TaskIdent × Nat × Bool)) (td pk : Bool) (s : SchedState)
    (ident : TaskIdent) (t : Nat)
    (hh : (rankCandidates (parseScan scan)).head? = some (ident, t, false))
    (ho : lookupTasks s.own_tasks ident = none) :
    handle_next dir scan td pk s = reaperUpdate dir ident td s := by
  unfold handle_next
  simp only [hh, ho]
  rfl

theorem handle_next_foreign_locked_eq (dir : String)
    (scan : List (Option TaskIdent × Nat × Bool)) (td pk : Bool) (s : SchedState)
    (ident : TaskIdent) (t : Nat)
    (hh : (rankCandidates (parseScan scan)).head? = some (ident, t, true))
    (ho : lookupTasks s.own_tasks ident = none) :
    handle_next dir scan td pk s =
      { state := { s with previous := none }, performed := none,
        events := [Ev.lockRoot, Ev.unlockRoot], ok := true } := by
  unfold handle_next
  simp only [hh, ho]
  rfl

theorem reaperUpdate_facts (dir : String) (ident : TaskIdent) (td : Bool)
    (s : SchedState) :
    (reaperUpdate dir ident td s).performed = none ∧
    (reaperUpdate dir ident td s).state.own_tasks = s.own_tasks ∧
    (reaperUpdate dir ident td s).state.task_files = s.task_files := by
  unfold reaperUpdate
  cases hp : s.previous with
  | none => exact ⟨rfl, rfl, rfl⟩
  | some pn =>
    obtain ⟨p, n⟩ := pn
    dsimp only
    split_ifs <;> exact ⟨rfl, rfl, rfl⟩

theorem ownBranch_facts (dir : String) (ident : TaskIdent) (b pk : Bool)
    (s : SchedState) :
    ((ownBranch dir ident b pk s).performed = none ∨
      (ownBranch dir ident b pk s).performed = some ident) ∧
    (ownBranch dir ident b pk s).state.task_files = s.task_files ∧
    ((ownBranch dir ident b pk s).state.own_tasks = s.own_tasks ∨
      (ownBranch dir ident b pk s).state.own_tasks
        = s.own_tasks.filter (fun p => !(p.1 == ident))) := by
  unfold ownBranch
  split_ifs <;> exact ⟨by simp, rfl, by simp⟩

theorem ownBranch_win_facts (dir : String) (ident : TaskIdent) (s : SchedState) :
    (ownBranch dir ident false true s).performed = some ident ∧
    (ownBranch dir ident false true s).state.previous = none ∧
    lookupTasks (ownBranch dir ident false true s).state.own_tasks ident = none ∧
    (ownBranch dir ident false true s).events =
      [Ev.lockRoot, Ev.unlockRoot, Ev.lockRoot]
        ++ (loserFiles dir ((lookupTasks s.task_files ident).getD [])).map Ev.destroyFile
        ++ [Ev.performTask]
        ++ (match localFile dir ((lookupTasks s.task_files ident).getD []) with
            | some tf => [Ev.destroyFile tf]
            | none => [])
        ++ [Ev.unlockRoot, Ev.lockRoot, Ev.removeOwnTask, Ev.unlockRoot] ∧
    (∀ tf ∈ loserFiles dir ((lookupTasks s.task_files ident).getD []),
      tf ∉ (ownBranch dir ident false true s).state.disk) ∧
    (∀ tf, localFile dir ((lookupTasks s.task_files ident).getD []) = some tf →
      tf ∉ (ownBranch dir ident false true s).state.disk) := by
  refine ⟨rfl, rfl, ?_, ?_, ?_, ?_⟩
  · simp only [ownBranch]
    simp only [if_neg (Bool.false_ne_true), if_pos rfl]
    exact lookupTasks_filter_out _ _
  · simp [ownBranch]
  · intro tf htf hmem
    simp only [ownBranch, if_neg (Bool.false_ne_true), if_pos rfl] at hmem
    cases hl : localFile dir ((lookupTasks s.task_files ident).getD []) with
    | none =>
      rw [hl] at hmem
      exact not_mem_filter_contains _ _ _ htf hmem
    | some tf2 =>
      rw [hl] at hmem
      exact not_mem_filter_contains _ _ _ htf (List.mem_of_mem_filter hmem)
  · intro tf hl hmem
    simp only [ownBranch, if_neg (Bool.false_ne_true), if_pos rfl] at hmem
    rw [hl] at hmem
    exact not_mem_filter_self _ _ hmem

theorem handle_next_not_own (dir : String)
    (scan : List (Option TaskIdent × Nat × Bool)) (td pk : Bool)
    (s : SchedState) (i : TaskIdent)
    (h : lookupTasks s.own_tasks i = none) :
    (handle_next dir scan td pk s).performed ≠ some i ∧
    lookupTasks (handle_next dir scan td pk s).state.own_tasks i = none := by
  cases hh : (rankCandidates (parseScan scan)).head? with
  | none =>
    rw [handle_next_head_none dir scan td pk s hh]
    exact ⟨by simp, h⟩
  | some c =>
    obtain ⟨j, t, locked⟩ := c
    cases hj : lookupTasks s.own_tasks j with
    | some b =>
      rw [handle_next_own_eq dir scan td pk s j t locked b hh hj]
      have hji : j ≠ i := by
        intro he
        rw [he, h] at hj
        cases hj
      obtain ⟨hperf, _, hown⟩ := ownBranch_facts dir j b pk s
      constructor
      · rcases hperf with h1 | h1 <;> rw [h1] <;> simp [hji]
      · rcases hown with h2 | h2 <;> rw [h2]
        · exact h
        · exact lookupTasks_filter_none _ _ _ h
    | none =>
      cases locked with
      | true =>
        rw [handle_next_foreign_locked_eq dir scan td pk s j t hh hj]
        exact ⟨by simp, h⟩
      | false =>
        rw [handle_next_foreign_unlocked_eq dir scan td pk s j t hh hj]
        obtain ⟨hperf, hown, _⟩ := reaperUpdate_facts dir j td s
        rw [hperf, hown]
        exact ⟨by simp, h⟩

theorem handle_next_performed_inv (dir : String)
    (scan : List (Option TaskIdent × Nat × Bool)) (td pk : Bool)
    (s : SchedState) (ident : TaskIdent)
    (hp : (handle_next dir scan td pk s).performed = some ident) :
    pk = true ∧ lookupTasks s.own_tasks ident = some false ∧
    handle_next dir scan td pk s = ownBranch dir ident false true s := by
  cases hh : (rankCandidates (parseScan scan)).head? with
  | none =>
    rw [handle_next_head_none dir scan td pk s hh] at hp
    cases hp
  | some c =>
    obtain ⟨j, t, locked⟩ := c
    cases hj : lookupTasks s.own_tasks j with
    | some b =>
      have heq := handle_next_own_eq dir scan td pk s j t locked b hh hj
      rw [heq] at hp
      cases b with
      | true => simp [ownBranch] at hp
      | false =>
        cases pk with
        | false => simp [ownBranch] at hp
        | true =>
          have hji : j = ident := by simpa [ownBranch] using hp
          subst hji
          exact ⟨rfl, hj, heq⟩
    | none =>
      cases locked with
      | true =>
        rw [handle_next_foreign_locked_eq dir scan td pk s j t hh hj] at hp
        cases hp
      | false =>
        rw [handle_next_foreign_unlocked_eq dir scan td pk s j t hh hj,
            (reaperUpdate_facts dir j td s).1] at hp
        cases hp

theorem handle_next_perform_removes (dir : String)
    (scan : List (Option TaskIdent × Nat × Bool)) (td pk : Bool)
    (s : SchedState) (i : TaskIdent)
    (hp : (handle_next dir scan td pk s).performed = some i) :
    lookupTasks (handle_next dir scan td pk s).state.own_tasks i = none := by
  obtain ⟨_, _, heq⟩ := handle_next_performed_inv dir scan td pk s i hp
  rw [heq]
  exact (ownBranch_win_facts dir i s).2.2.1

theorem handle_next_task_files_frame (dir : String)
    (scan : List (Option TaskIdent × Nat × Bool)) (td pk : Bool) (s : SchedState) :
    (handle_next dir scan td pk s).state.task_files = s.task_files := by
  cases hh : (rankCandidates (parseScan scan)).head? with
  | none => rw [handle_next_head_none dir scan td pk s hh]
  | some c =>
    obtain ⟨j, t, locked⟩ := c
    cases hj : lookupTasks s.own_tasks j with
    | some b =>
      rw [handle_next_own_eq dir scan td pk s j t locked b hh hj]
      exact (ownBranch_facts dir j b pk s).2.1
    | none =>
      cases locked with
      | true => rw [handle_next_foreign_locked_eq dir scan td pk s j t hh hj]
      | false =>
        rw [handle_next_foreign_unlocked_eq dir scan td pk s j t hh hj]
        exact (reaperUpdate_facts dir j td s).2.2

theorem runSteps_no_own (steps : List (String × List (Option TaskIdent × Nat × Bool)))
    (s : SchedState) (i : TaskIdent)
    (h : lookupTasks s.own_tasks i = none) :
    i ∉ (runSteps steps s).2 := by
  induction steps generalizing s with
  | nil => simp [runSteps]
  | cons st rest ih =>
    obtain ⟨dir, scan⟩ := st
    simp only [runSteps, List.mem_append]
    push_neg
    obtain ⟨h1, h2⟩ := handle_next_not_own dir scan true true s i h
    constructor
    · cases hpf : (handle_next dir scan true true s).performed with
      | none => simp
      | some j =>
        simp only [Option.toList, List.mem_singleton]
        intro he
        exact h1 (by rw [hpf, he])
    · exact ih _ h2

theorem runSteps_count_le_one
    (steps : List (String × List (Option TaskIdent × Nat × Bool)))
    (s : SchedState) (i : TaskIdent) :
    (runSteps steps s).2.count i ≤ 1 := by
  induction steps generalizing s with
  | nil => simp [runSteps]
  | cons st rest ih =>
    obtain ⟨dir, scan⟩ := st
    simp only [runSteps, List.count_append]
    cases hpf : (handle_next dir scan true true s).performed with
    | none => simpa using ih _
    | some j =>
      by_cases hji : j = i
      · subst hji
        have h2 := handle_next_perform_removes dir scan true true s j hpf
        have h3 := runSteps_no_own rest _ j h2
        have h4 : (runSteps rest (handle_next dir scan true true s).state).2.count j = 0 :=
          List.count_eq_zero.mpr h3
        simp [h4, List.count_cons]
      · simp only [Option.toList]
        have h5 : ([j].count i) = 0 := by
          simp [List.count_cons, hji]
        rw [h5]
        simpa using ih _

theorem heldStep_destroy_list (l : List TaskFile) (acc : Nat × Bool) :
    List.foldl heldStep acc (l.map Ev.destroyFile) = acc := by
  induction l generalizing acc with
  | nil => rfl
  | cons a l ih => simp [heldStep, ih]

theorem reaperUpdate_previous_spec (dir : String) (ident : TaskIdent) (s : SchedState) :
    (reaperUpdate dir ident true s).state.previous = reaperSpecStep ident s.previous := by
  unfold reaperUpdate reaperSpecStep
  cases hp : s.previous with
  | none => rfl
  | some pn =>
    obtain ⟨p, n⟩ := pn
    dsimp only
    by_cases h1 : p = ident
    · subst h1
      by_cases h2 : n ≥ 2
      · have h3 : ¬ n < 2 := by omega
        simp [h2, h3]
      · have h3 : n < 2 := by omega
        simp [h2, h3]
    · simp [h1]

/-! The claims. -/

/-- Claim C1: when handle_next finds the head candidate in own_tasks and
successfully try-locks its ownership mutex, it clears previous, destroys
every TaskFile of the ident outside this resource directory before
perform_task runs (the event trace places their destroyFile events before
performTask), destroys the local TaskFile after perform_task returns, and
removes the ident from own_tasks; and over any sequence of ticks, a
performed task is performed exactly once (the first successful acquisition
wins, after which the ident is gone from own_tasks). -/
theorem handle_next_exactly_once :
    (∀ (dir : String) (scan : List (Option TaskIdent × Nat × Bool)) (td : Bool)
       (s : SchedState) (ident : TaskIdent) (t : Nat) (locked : Bool),
      (rankCandidates (parseScan scan)).head? = some (ident, t, locked) →
      lookupTasks s.own_tasks ident = some false →
      ((handle_next dir scan td true s).performed = some ident ∧
       (handle_next dir scan td true s).state.previous = none ∧
       lookupTasks (handle_next dir scan td true s).state.own_tasks ident = none ∧
       (handle_next dir scan td true s).events =
         [Ev.lockRoot, Ev.unlockRoot, Ev.lockRoot]
           ++ (loserFiles dir ((lookupTasks s.task_files ident).getD [])).map Ev.destroyFile
           ++ [Ev.performTask]
           ++ (match localFile dir ((lookupTasks s.task_files ident).getD []) with
               | some tf => [Ev.destroyFile tf]
               | none => [])
           ++ [Ev.unlockRoot, Ev.lockRoot, Ev.removeOwnTask, Ev.unlockRoot] ∧
       (∀ tf ∈ loserFiles dir ((lookupTasks s.task_files ident).getD []),
         tf ∉ (handle_next dir scan td true s).state.disk) ∧
       (∀ tf, localFile dir ((lookupTasks s.task_files ident).getD []) = some tf →
         tf ∉ (handle_next dir scan td true s).state.disk))) ∧
    (∀ (steps : List (String × List (Option TaskIdent × Nat × Bool)))
       (s : SchedState) (ident : TaskIdent),
      ident ∈ (runSteps steps s).2 → (runSteps steps s).2.count ident = 1) := by
  constructor
  · intro dir scan td s ident t locked hh ho
    rw [handle_next_own_eq dir scan td true s ident t locked false hh ho]
    exact ownBranch_win_facts dir ident s
  · intro steps s ident hmem
    have h1 := runSteps_count_le_one steps s ident
    have h2 : 0 < (runSteps steps s).2.count ident := List.count_pos_iff.mpr hmem
    omega

/-- Witness for C1 at a concrete input: idO is own and unclaimed, the tick
performs it, and a two-resource polling sequence performs it exactly
once. -/
theorem handle_next_exactly_once_witness :
    ((rankCandidates (parseScan [(some idO, 2, false)])).head?
        = some (idO, 2, false) ∧
     lookupTasks stO.own_tasks idO = some false ∧
     (handle_next "dA" [(some idO, 2, false)] true true stO).performed = some idO) ∧
    (idO ∈ (runSteps [("dA", [(some idO, 2, false)]),
                      ("dB", [(some idO, 2, false)])] stO).2 ∧
     (runSteps [("dA", [(some idO, 2, false)]),
                ("dB", [(some idO, 2, false)])] stO).2.count idO = 1) := by
  constructor
  · refine ⟨by decide, by decide, ?_⟩
    exact (handle_next_exactly_once.1 "dA" [(some idO, 2, false)] true stO idO 2
      false (by decide) (by decide)).1
  · refine ⟨by decide, ?_⟩
    exact handle_next_exactly_once.2 [("dA", [(some idO, 2, false)]),
      ("dB", [(some idO, 2, false)])] stO idO (by decide)

/-- Claim C2: with a foreign unlocked head (and try_destroy succeeding, the
failure case being claim C5), previous evolves exactly as specified: none
to (ident, 1), (ident, n less than 2) to (ident, n+1), (ident, n at least
2) to none after try_destroy, a different ident to none; with a foreign
locked head, or an empty candidate list, previous is cleared. -/
theorem handle_next_previous_evolution :
    (∀ (dir : String) (scan : List (Option TaskIdent × Nat × Bool)) (pk : Bool)
       (s : SchedState) (ident : TaskIdent) (t : Nat),
      (rankCandidates (parseScan scan)).head? = some (ident, t, false) →
      lookupTasks s.own_tasks ident = none →
      (handle_next dir scan true pk s).state.previous
        = reaperSpecStep ident s.previous) ∧
    (∀ (dir : String) (scan : List (Option TaskIdent × Nat × Bool)) (td pk : Bool)
       (s : SchedState) (ident : TaskIdent) (t : Nat),
      (rankCandidates (parseScan scan)).head? = some (ident, t, true) →
      lookupTasks s.own_tasks ident = none →
      (handle_next dir scan td pk s).state.previous = none) ∧
    (∀ (dir : String) (scan : List (Option TaskIdent × Nat × Bool)) (td pk : Bool)
       (s : SchedState),
      (rankCandidates (parseScan scan)).head? = none →
      (handle_next dir scan td pk s).state.previous = none) := by
  refine ⟨?_, ?_, ?_⟩
  · intro dir scan pk s ident t hh ho
    rw [handle_next_foreign_unlocked_eq dir scan true pk s ident t hh ho]
    exact reaperUpdate_previous_spec dir ident s
  · intro dir scan td pk s ident t hh ho
    rw [handle_next_foreign_locked_eq dir scan td pk s ident t hh ho]
  · intro dir scan td pk s hh
    rw [handle_next_head_none dir scan td pk s hh]

/-- Witness for C2 at concrete inputs: a foreign unlocked head follows the
reaper rule, a foreign locked head clears previous, and an empty scan
clears previous. -/
theorem handle_next_previous_evolution_witness :
    ((rankCandidates (parseScan [(some idP, 4, false)])).head?
        = some (idP, 4, false) ∧
     lookupTasks stP.own_tasks idP = none ∧
     (handle_next "d" [(some idP, 4, false)] true true stP).state.previous
       = reaperSpecStep idP stP.previous) ∧
    ((rankCandidates (parseScan [(some idP, 4, true)])).head?
        = some (idP, 4, true) ∧
     (handle_next "d" [(some idP, 4, true)] true true stP).state.previous = none) ∧
    ((rankCandidates (parseScan ([] : List (Option TaskIdent × Nat × Bool)))).head?
        = none ∧
     (handle_next "d" [] true true stP).state.previous = none) := by
  refine ⟨⟨by decide, by decide, ?_⟩, ⟨by decide, ?_⟩, ⟨by decide, ?_⟩⟩
  · exact handle_next_previous_evolution.1 "d" _ true stP idP 4 (by decide) (by decide)
  · exact handle_next_previous_evolution.2.1 "d" _ true true stP idP 4 (by decide)
      (by decide)
  · exact handle_next_previous_evolution.2.2 "d" _ true true stP (by decide)

/-- Claim C3 counterexample: two candidates tie on priority and creation
timestamp; the scan lists identB first, identA second.  The head of the
ranking is identB, although identA's filename is lexicographically smaller
(list-of-characters order on the encoded filenames), so ties are not broken
by filename lexicographic order. -/
theorem rank_tie_breaks_by_scan_order :
    (rankCandidates [(identB, 5, false), (identA, 5, false)]).head?
        = some (identB, 5, false) ∧
    candKey (identA, 5, false) = candKey (identB, 5, false) ∧
    identA.to_filename.data < identB.to_filename.data ∧
    identA ≠ identB := by decide

/-- Claim C3 (amended): handle_next ranks the successfully parsed
candidates by (priority ascending, creation timestamp ascending) with a
stable sort and considers only the head; among candidates with equal
priority and equal creation timestamp the one scanned first is ranked
first (directory-enumeration order), not the lexicographically least
filename. -/
theorem rank_sorted_and_stable :
    (∀ l : List Cand, List.Sorted candLE (rankCandidates l)) ∧
    (∀ (l : List Cand) (k : Nat × Nat),
      (rankCandidates l).filter (fun c => decide (candKey c = k)) =
        l.filter (fun c => decide (candKey c = k))) :=
  ⟨fun l => List.sorted_insertionSort candLE l, rank_stable_key⟩

/-- Claim C4 counterexample: a task retires (is performed, both TaskFiles
unlinked from disk), yet its entry is still present in the task_files map
afterwards — handle_next never removes task_files entries. -/
theorem task_files_entry_survives_retirement :
    (handle_next "d1" [(some idC, 3, false)] true true stC4).performed = some idC ∧
    (handle_next "d1" [(some idC, 3, false)] true true stC4).state.disk = [] ∧
    lookupTasks (handle_next "d1" [(some idC, 3, false)] true true stC4).state.task_files
      idC = some [tfC1, tfC2] := by decide

/-- Claim C4 (amended): TaskFiles destroyed by handle_next are unlinked
from disk, and the ident is removed from own_tasks, but the task_files map
is never updated by handle_next: the entry for the retired ident remains in
task_files. -/
theorem handle_next_unlinks_but_keeps_task_files :
    (∀ (dir : String) (scan : List (Option TaskIdent × Nat × Bool)) (td pk : Bool)
       (s : SchedState),
      (handle_next dir scan td pk s).state.task_files = s.task_files) ∧
    (∀ (dir : String) (scan : List (Option TaskIdent × Nat × Bool)) (td pk : Bool)
       (s : SchedState) (ident : TaskIdent),
      (handle_next dir scan td pk s).performed = some ident →
      (lookupTasks (handle_next dir scan td pk s).state.own_tasks ident = none ∧
       (∀ tf ∈ loserFiles dir ((lookupTasks s.task_files ident).getD []),
         tf ∉ (handle_next dir scan td pk s).state.disk) ∧
       (∀ tf, localFile dir ((lookupTasks s.task_files ident).getD []) = some tf →
         tf ∉ (handle_next dir scan td pk s).state.disk))) := by
  constructor
  · exact handle_next_task_files_frame
  · intro dir scan td pk s ident hp
    obtain ⟨hpk, ho, heq⟩ := handle_next_performed_inv dir scan td pk s ident hp
    rw [heq]
    obtain ⟨_, _, h3, _, h5, h6⟩ := ownBranch_win_facts dir ident s
    exact ⟨h3, h5, h6⟩

/-- Witness for C4 at a concrete input: the performed hypothesis holds and
the ident is removed from own_tasks. -/
theorem handle_next_unlinks_but_keeps_task_files_witness :
    (handle_next "d1" [(some idC, 3, false)] true true stC4).performed = some idC ∧
    lookupTasks (handle_next "d1" [(some idC, 3, false)] true true stC4).state.own_tasks
      idC = none := by
  refine ⟨by decide, ?_⟩
  exact (handle_next_unlinks_but_keeps_task_files.2 "d1"
    [(some idC, 3, false)] true true stC4 idC (by decide)).1

/-- Claim C5 is violated by the code: in the reaper branch (foreign head,
unlocked, previously observed with count at least 2), a try_destroy failure
is not swallowed — the question-mark operator at line 379 propagates it, so
handle_next returns Err (ok = false), and the assignment to previous never
happens.  The adjacent comment (another peer may have done it for us) and
the specification both say the failure should be non-fatal. -/
theorem reaper_try_destroy_error_propagates :
    (handle_next "d" [(some idR, 7, false)] false true stC5).ok = false ∧
    (handle_next "d" [(some idR, 7, false)] false true stC5).state.previous
      = some (idR, 2) := by decide

/-- Claim C6 is violated by the code: ensure_resource_scheduler pushes a
new ResourceScheduler unconditionally (the dedup exists only as the FIXME
comment at line 185), so scheduling twice with the same dir_id yields two
ResourceSchedulers for that dir_id. -/
theorem ensure_resource_scheduler_duplicates :
    ((Scheduler.schedule (Scheduler.schedule fs0 0 "t" ["r0"]) 1 "u"
        ["r0"]).resource_schedulers).count "r0" = 2 := by decide

/-- Claim C7 is violated by the code: the worker runs
handle_next().expect(...) (line 138, marked FIXME), so an Err from
handle_next — here a failing try_destroy in the reaper branch — panics the
polling thread, which therefore does not survive to the next tick. -/
theorem worker_thread_dies_on_handle_next_error :
    workerTickSurvives "dw" [(some idW, 1, false)] false true stC7 = false := by
  decide

/-- Claim C8 counterexample: at a concrete winning tick the performTask
event occurs at positive root-mutex lock depth — the SchedulerRoot mutex is
held while perform_task runs, contradicting the claim that it is released
before execution begins. -/
theorem root_mutex_held_at_concrete_tick :
    (handle_next "dF" [(some idF, 2, false)] true true stF).performed = some idF ∧
    heldAtPerform (handle_next "dF" [(some idF, 2, false)] true true stF).events
      = true := by decide

/-- Claim C8 (amended): whenever handle_next performs a task, the
SchedulerRoot mutex is held across perform_task (the guard taken at line
317 is dropped only at line 361, after the local TaskFile destruction); it
is then reacquired to remove the ident from own_tasks. -/
theorem root_mutex_held_during_perform :
    ∀ (dir : String) (scan : List (Option TaskIdent × Nat × Bool)) (td pk : Bool)
      (s : SchedState) (ident : TaskIdent),
      (handle_next dir scan td pk s).performed = some ident →
      heldAtPerform (handle_next dir scan td pk s).events = true := by
  intro dir scan td pk s ident hp
  obtain ⟨_, _, heq⟩ := handle_next_performed_inv dir scan td pk s ident hp
  rw [heq]
  obtain ⟨_, _, _, hev, _, _⟩ := ownBranch_win_facts dir ident s
  rw [heldAtPerform, hev]
  cases hl : localFile dir ((lookupTasks s.task_files ident).getD []) with
  | none =>
    simp only [hl, List.foldl_append, List.foldl_cons, List.foldl_nil, heldStep]
    rw [heldStep_destroy_list]
    simp [heldStep]
  | some tf =>
    simp only [hl, List.foldl_append, List.foldl_cons, List.foldl_nil, heldStep]
    rw [heldStep_destroy_list]
    simp [heldStep]

/-- Witness for C8 at a concrete input: idE is performed and the root mutex
is held at the performTask event. -/
theorem root_mutex_held_during_perform_witness :
    (handle_next "dE" [(some idE, 1, false)] true true stE).performed = some idE ∧
    heldAtPerform (handle_next "dE" [(some idE, 1, false)] true true stE).events
      = true := by
  refine ⟨by decide, ?_⟩
  exact root_mutex_held_during_perform "dE" [(some idE, 1, false)] true true stE
    idE (by decide)

/-- Claim C9 is violated by the code: on a started Scheduler the first
stop() does return Ok, but if its signal is consumed by the inner
should_stop check (line 134) the break exits only the for loop — the
thread does not return, the receiver stays alive, the worker's next outer
check finds the channel empty and polling (and hence handle_next and
execute) continues on the next tick, and a second stop() returns Ok
instead of SendError.  The first conjunct is the first stop(); the second
shows the inner check consuming the signal without exiting the thread; the
third shows the next outer check proceeding into handle_next invocations;
the last two show that a second stop() on the resulting channel succeeds
rather than erroring. -/
theorem stop_signal_lost_at_inner_check :
    Scheduler.stop (some ⟨0, true⟩) = Except.ok (some ⟨1, true⟩) ∧
    workerCheckAt CheckSite.inner ⟨1, true⟩ = (false, ⟨0, true⟩, false) ∧
    workerCheckAt CheckSite.outer ⟨0, true⟩ = (false, ⟨0, true⟩, true) ∧
    Scheduler.stop (some ⟨0, true⟩) ≠ Except.error () ∧
    chanSend ⟨0, true⟩ = Except.ok ⟨1, true⟩ := by
  refine ⟨rfl, rfl, rfl, ?_, rfl⟩
  intro h
  simp [Scheduler.stop, chanSend, Except.map] at h

/-- Claim C10 counterexample: scheduling with an empty resources list is
not free of state change — new_ident is still called, so ident_counter
increments from 0 to 1. -/
theorem schedule_empty_resources_increments_counter :
    (Scheduler.schedule fs0 0 "t" []).sched.ident_counter = 1 ∧
    fs0.sched.ident_counter = 0 := by decide

/-- Claim C10 (amended): scheduling with an empty resources list creates no
TaskFile on disk, inserts nothing into task_files or own_tasks, adds no
ResourceScheduler, and returns successfully — but it does allocate and
discard an ident, incrementing ident_counter by one. -/
theorem schedule_empty_resources_effects :
    ∀ (fs : FullState) (priority : Nat) (name : String),
      (Scheduler.schedule fs priority name []).sched.disk = fs.sched.disk ∧
      (Scheduler.schedule fs priority name []).sched.task_files
        = fs.sched.task_files ∧
      (Scheduler.schedule fs priority name []).sched.own_tasks
        = fs.sched.own_tasks ∧
      (Scheduler.schedule fs priority name []).resource_schedulers
        = fs.resource_schedulers ∧
      (Scheduler.schedule fs priority name []).sched.ident_counter
        = fs.sched.ident_counter + 1 := by
  intro fs p n
  simp [Scheduler.schedule, SchedulerRoot.schedule, new_ident]
